import Mathlib

/-!
Verification of the rate-limit-aware REST client in `src/RESTClient.ts`
(package `@pcordjs/rest`).

The TypeScript source is shallowly embedded below.  JavaScript numbers that
carry times or API versions are modelled as rationals (`ℚ`); `Infinity` is
modelled by `Option` (`none` = `Infinity`).  Header maps are modelled as
association lists with JavaScript object-spread update semantics.  The
asynchronous drain loops (`flushBucket` / `flushGlobalBucket`) are modelled as
fuelled functions whose per-dispatch network effects are supplied by an
arbitrary environment, and which additionally emit a trace of their suspension
events (awaiting the global block, sleeping until a bucket reset, dispatching
a job).
-/

namespace Rest

/-- Error codes of `RESTError` (src/RESTError.ts). -/
inductive RESTErrorCode where
  | TOKEN_REQUIRED
  | TIMEOUT
  | INVALID_API_VERSION
deriving DecidableEq, Repr

/-- Token categories (src/RESTClient.ts, `enum TokenType`). -/
inductive TokenType where
  | BOT
  | BEARER
deriving DecidableEq, Repr

/-- Model of a JSON-serializable plain value (a structured request body:
`Record<string, unknown> | unknown[]` and their nested contents). -/
inductive Json where
  | null
  | bool (b : Bool)
  | num (n : Int)
  | str (s : String)
  | arr (xs : List Json)
  | obj (fields : List (String × Json))

/-- Escape one character the way `JSON.stringify` escapes characters inside a
string literal. -/
def jsonEscapeChar (c : Char) : String :=
  if c = '"' then "\\\""
  else if c = '\\' then "\\\\"
  else if c = '\n' then "\\n"
  else if c = '\r' then "\\r"
  else if c = '\t' then "\\t"
  else if c.toNat < 32 then
    "\\u00" ++ String.mk [Nat.digitChar (c.toNat / 16), Nat.digitChar (c.toNat % 16)]
  else String.mk [c]

/-- Serialization of a JSON string literal, quotes included. -/
def jsonQuote (s : String) : String :=
  "\"" ++ String.join (s.data.map jsonEscapeChar) ++ "\""

mutual

/-- Model of `JSON.stringify` on plain objects/arrays (src/RESTClient.ts line
280 serializes structured bodies with `JSON.stringify`). -/
def jsonStringify : Json → String
  | .null => "null"
  | .bool true => "true"
  | .bool false => "false"
  | .num n => toString n
  | .str s => jsonQuote s
  | .arr xs => "[" ++ jsonStringifyArr xs ++ "]"
  | .obj fs => "\x7b" ++ jsonStringifyObj fs ++ "\x7d"

/-- Comma-separated serialization of array elements. -/
def jsonStringifyArr : List Json → String
  | [] => ""
  | [x] => jsonStringify x
  | x :: y :: xs => jsonStringify x ++ "," ++ jsonStringifyArr (y :: xs)

/-- Comma-separated serialization of object fields (insertion order). -/
def jsonStringifyObj : List (String × Json) → String
  | [] => ""
  | [(k, v)] => jsonQuote k ++ ":" ++ jsonStringify v
  | (k, v) :: f :: fs =>
      jsonQuote k ++ ":" ++ jsonStringify v ++ "," ++ jsonStringifyObj (f :: fs)

end

/-- The caller-supplied request body (`RequestOptions.body`):
a string, a raw byte `Buffer`, a structured (plain object / array) value, or a
readable byte stream (identified opaquely). -/
inductive Body where
  | str (s : String)
  | buf (bytes : List Nat)
  | json (j : Json)
  | byteStream (id : Nat)

/-- The wire body of a prepared request: `Buffer.from` of a string (UTF-8
encoding abstracted as an injective constructor), a copied raw byte buffer, or
a readable stream passed through. -/
inductive WireBody where
  | fromStr (s : String)
  | fromBytes (bytes : List Nat)
  | fromStream (id : Nat)
deriving DecidableEq, Repr

/-- JavaScript object property update: replace the value at an existing key in
place, else append the key at the end. -/
def hSet (k v : String) : List (String × String) → List (String × String)
  | [] => [(k, v)]
  | p :: ps => if p.1 = k then (k, v) :: ps else p :: hSet k v ps

/-- JavaScript object property lookup (first entry with the key). -/
def hGet (k : String) : List (String × String) → Option String
  | [] => none
  | p :: ps => if p.1 = k then some p.2 else hGet k ps

/-- Object spread `\x7b ...base, ...extra \x7d`: every entry of `extra` is
written over `base`, in order, so `extra` wins on key conflicts. -/
def mergeHeaders (base extra : List (String × String)) : List (String × String) :=
  extra.foldl (fun acc p => hSet p.1 p.2 acc) base

/-- Value of the last entry of `ps` carrying key `n`, if any (the value a
JavaScript object built from `ps` would hold at `n`). -/
def lastVal (n : String) : List (String × String) → Option String
  | [] => none
  | p :: ps =>
    match lastVal n ps with
    | some v => some v
    | none => if p.1 = n then some p.2 else none

/-- Client configuration (`RESTClientOptions`).  `timeout` distinguishes the
field being absent (`none`) from being present (`some t`, where `t = none`
denotes the value `Infinity`). -/
structure RESTClientOptions where
  token : Option String := none
  tokenType : Option TokenType := none
  host : Option String := none
  port : Option Nat := none
  apiVersion : Option ℚ := none
  userAgentSuffix : Option String := none
  timeout : Option (Option ℚ) := none

/-- Per-request options (`RequestOptions`).  The query string is modelled as
its already-encoded `toString` rendering. -/
structure RequestOptions where
  headers : List (String × String) := []
  body : Option Body := none
  auth : Bool := false
  queryString : Option String := none
  timeout : Option (Option ℚ) := none

/-- The version of package.json baked into the user agent; its value is
immaterial to every claim. -/
def packageVersion : String := "0.0.0"

/-- The constant first section of the user agent (`BASE_USER_AGENT`). -/
def BASE_USER_AGENT : String :=
  "DiscordBot (https://github.com/pcordjs/rest, " ++ packageVersion ++ ")"

/-- The `userAgent` getter: the base user agent, with the configured suffix
appended after a comma when the suffix is a truthy (non-empty) string. -/
def userAgent (o : RESTClientOptions) : String :=
  BASE_USER_AGENT ++
    match o.userAgentSuffix with
    | some s => if s = "" then "" else ", " ++ s
    | none => ""

/-- The `auth` getter: fails with `TOKEN_REQUIRED` when no (truthy) token is
configured, else produces the Authorization header value. -/
def authOf (o : RESTClientOptions) : Except RESTErrorCode String :=
  match o.token with
  | none => .error .TOKEN_REQUIRED
  | some t =>
    if t = "" then .error .TOKEN_REQUIRED
    else .ok ((if o.tokenType = some TokenType.BEARER then "Bearer" else "Bot") ++ " " ++ t)

/-- Truth of `typeof options.body === 'object' && !(options.body instanceof Buffer)`:
holds exactly for structured (JSON) values and readable streams. -/
def ctCond : Option Body → Bool
  | some (.json _) => true
  | some (.byteStream _) => true
  | _ => false

/-- Rendering of a JavaScript number into the final path
(`/api/v${apiVersion}`).  Integral values render as their decimal digits; the
rendering of non-integral versions is abstracted (no claim depends on it). -/
def ratToString (q : ℚ) : String :=
  if q.den = 1 then toString q.num else toString q

/-- The version segment of the final path: the configured version, or the
default `9`. -/
def versionString : Option ℚ → String
  | none => "9"
  | some q => ratToString q

/-- Resolution of the per-request timeout:
`options.timeout ?? this.options.timeout ?? Infinity`. -/
def resolveTimeout (o : RequestOptions) (c : RESTClientOptions) : Option ℚ :=
  match o.timeout with
  | some t => t
  | none =>
    match c.timeout with
    | some t => t
    | none => none

/-- Consume the literal `pre` from the front of `cs`. -/
def dropLit : List Char → List Char → Option (List Char)
  | [], cs => some cs
  | _ :: _, [] => none
  | l :: ls, c :: cs => if c = l then dropLit ls cs else none

/-- Split off the maximal leading run of decimal digits (the greedy `\d+`,
possibly empty). -/
def takeDigits : List Char → List Char × List Char
  | [] => ([], [])
  | c :: cs =>
    if c.isDigit then
      ((c :: (takeDigits cs).1), (takeDigits cs).2)
    else ([], c :: cs)

/-- Match `pre` followed by one or more decimal digits at the front of `cs`,
returning the digit run and the remainder. -/
def matchIdAfter (pre cs : List Char) : Option (List Char × List Char) :=
  match dropLit pre cs with
  | none => none
  | some cs' =>
    let p := takeDigits cs'
    if p.1 = [] then none else some p

/-- The alternative `channels` of the routing regular expression, with its
trailing slash. -/
def channelsKey : List Char := ['c', 'h', 'a', 'n', 'n', 'e', 'l', 's', '/']

/-- The alternative `guilds` of the routing regular expression, with its
trailing slash. -/
def guildsKey : List Char := ['g', 'u', 'i', 'l', 'd', 's', '/']

/-- The alternative `webhooks` of the routing regular expression, with its
trailing slash. -/
def webhooksKey : List Char := ['w', 'e', 'b', 'h', 'o', 'o', 'k', 's', '/']

/-- Character-list form of the regular expression
`^\/((?:channels|guilds|webhooks\/\d+)\/\d+)` applied to the path, returning
the first capture group (src/RESTClient.ts, `getRateLimitBucket`): the
leading anchor slash followed by one of the three alternatives, each ending
in one or more digits, greedily matched. -/
def rlbList (cs : List Char) : Option (List Char) :=
  match matchIdAfter ('/' :: channelsKey) cs with
  | some (d, _) => some (channelsKey ++ d)
  | none =>
    match matchIdAfter ('/' :: guildsKey) cs with
    | some (d, _) => some (guildsKey ++ d)
    | none =>
      match matchIdAfter ('/' :: webhooksKey) cs with
      | none => none
      | some (d1, r1) =>
        match matchIdAfter ['/'] r1 with
        | none => none
        | some (d2, _) => some (webhooksKey ++ d1 ++ '/' :: d2)

/-- The static bucket-routing function `RESTClient.getRateLimitBucket`. -/
def getRateLimitBucket (path : String) : Option String :=
  (rlbList path.data).map fun l => String.mk l

/-- A prepared request (`PreparedRequest`).  `timeout = none` denotes
`Infinity`; the origin stack trace is carried verbatim. -/
structure Req where
  headers : List (String × String)
  method : String
  path : String
  host : String
  body : Option WireBody
  bucketId : Option String
  timeout : Option ℚ
  stream : Bool
  stack : String
  port : Option Nat
deriving DecidableEq, Repr

/-- The default headers installed before the caller's headers are spread over
them (src/RESTClient.ts lines 261-265). -/
def defaultHeaders (c : RESTClientOptions) : List (String × String) :=
  [("User-Agent", userAgent c), ("Accept-Encoding", "gzip,deflate")]

/-- The pure request preparer `RESTClient.prepareRequest`
(src/RESTClient.ts lines 253-299). -/
def prepareRequest (c : RESTClientOptions) (method path : String)
    (opts : RequestOptions) (streamResponse : Bool) (stack : String) :
    Except RESTErrorCode Req :=
  let hs0 := mergeHeaders (defaultHeaders c) opts.headers
  match
    (if opts.auth then (authOf c).map (fun a => hSet "Authorization" a hs0)
     else .ok hs0) with
  | .error e => .error e
  | .ok hs1 =>
    let hs2 :=
      if ctCond opts.body then hSet "Content-Type" "application/json" hs1 else hs1
    let finalPath :=
      "/api/v" ++ versionString c.apiVersion ++ path ++
        (match opts.queryString with
         | some q => "?" ++ q
         | none => "")
    let finalBody : Option WireBody :=
      match opts.body with
      | none => none
      | some (.byteStream i) => some (.fromStream i)
      | some (.str s) => some (.fromStr s)
      | some (.buf bs) => some (.fromBytes bs)
      | some (.json j) => some (.fromStr (jsonStringify j))
    Except.ok
      { headers := hs2
        method := method
        path := finalPath
        host := c.host.getD "discord.com"
        body := finalBody
        timeout := resolveTimeout opts c
        bucketId := getRateLimitBucket path
        stack := stack
        port := c.port
        stream := streamResponse }

/-- A queued request job (`RequestFinalizer`).  A job created by `request`
carries `retryStart = none`; a job created by the retry path of
`finalizeRequest` additionally records the start time of the failed attempt,
because the closure recomputes the timeout budget when it is eventually
dispatched. -/
structure Job where
  req : Req
  retryStart : Option ℚ
deriving DecidableEq, Repr

/-- The request a job finalizes when it is dispatched at time `t`: a retry
closure re-finalizes the same prepared request with
`timeout := init.stream ? null : init.timeout - (Date.now() - startTime)`
(src/RESTClient.ts lines 522-535). -/
def Job.reqAt (j : Job) (t : ℚ) : Req :=
  match j.retryStart with
  | none => j.req
  | some s =>
    { j.req with
      timeout :=
        if j.req.stream then none
        else j.req.timeout.map fun budget => budget - (t - s) }

/-- A rate-limit bucket (`RateLimitBucket`).  `remaining = none` models the
initial `Infinity` (count never observed); `reset` is an absolute timestamp in
milliseconds. -/
structure Bucket where
  remaining : Option Int
  reset : ℚ
  queue : List Job
  flushing : Bool
deriving DecidableEq, Repr

/-- Lookup in the `buckets` map (modelled as an association list in insertion
order, mirroring `Map.get`). -/
def bLookup (k : String) (m : List (String × Bucket)) : Option Bucket :=
  match m with
  | [] => none
  | p :: ps => if p.1 = k then some p.2 else bLookup k ps

/-- Update in the `buckets` map (mirroring `Map.set`: replace in place, else
append). -/
def bInsert (k : String) (b : Bucket) : List (String × Bucket) → List (String × Bucket)
  | [] => [(k, b)]
  | p :: ps => if p.1 = k then (k, b) :: ps else p :: bInsert k b ps

/-- The recognized inbound response headers, with string values abstracted to
their parsed numeric forms.  A field is `some` exactly when the header is
present with a truthy (non-empty) value; `xRateLimitGlobal` is bare presence
(the code tests it with the `in` operator). -/
structure RespHeaders where
  xRateLimitReset : Option ℚ
  retryAfter : Option Int
  xRateLimitRemaining : Option Int
  xRateLimitGlobal : Bool
  contentType : Option String
deriving DecidableEq, Repr

/-- Reset-time extraction (src/RESTClient.ts lines 460-468): prefer the
fractional epoch-seconds header scaled to milliseconds, else the relative
retry-after header in seconds added to the current time, else none.
(`Date`'s truncation to whole milliseconds is below claim granularity and not
modelled.) -/
def extractReset (h : RespHeaders) (now : ℚ) : Option ℚ :=
  match h.xRateLimitReset with
  | some r => some (r * 1000)
  | none =>
    match h.retryAfter with
    | some a => some ((a : ℚ) * 1000 + now)
    | none => none

/-- Bucket-state update from response headers (src/RESTClient.ts lines
470-494): requires a truthy remaining-count header, a bucket id on the
request, and an extracted reset time; then updates the existing bucket's
`remaining`/`reset`, or creates the bucket with an empty queue. -/
def updateBuckets (m : List (String × Bucket)) (bucketId : Option String)
    (h : RespHeaders) (reset? : Option ℚ) : List (String × Bucket) :=
  match h.xRateLimitRemaining, bucketId, reset? with
  | some rem, some k, some rst =>
    match bLookup k m with
    | none => bInsert k { remaining := some rem, reset := rst, queue := [], flushing := false } m
    | some b => bInsert k { b with remaining := some rem, reset := rst } m
  | _, _, _ => m

/-- Truth of `response.statusCode && (statusCode === 429 || statusCode >= 500)`. -/
def isRetryStatus : Option Nat → Bool
  | some s => s == 429 || 500 ≤ s
  | none => false

/-- Truth of `response.statusCode ? response.statusCode >= 400 : false`. -/
def isErrorStatus : Option Nat → Bool
  | some s => decide (400 ≤ s)
  | none => false

/-- How this response attempt settles the caller's promise (the actual payload
is out of scope of the claims). -/
inductive Settle where
  | resolved
  | rejected
deriving DecidableEq, Repr

/-- Result of running the response handler of `finalizeRequest` on one
completed response. -/
structure FinalizeOut where
  buckets : List (String × Bucket)
  globalQueue : List Job
  block : Option ℚ
  retried : Bool
  settle : Option Settle
deriving DecidableEq, Repr

/-- The response handler of `RESTClient.finalizeRequest`
(src/RESTClient.ts lines 450-584), as a pure transition on the client state
visible to it.

Inputs: the client's bucket map, global queue and global block signal
(`block = some t` models an outstanding block promise whose `setTimeout`
resolves it — and nulls the field — at absolute time `t`); the prepared
request `init`; the response status and recognized headers; `startTime`
(`Date.now()` when the attempt began) and `now` (`Date.now()` in the response
handler); and `cancelled0`, whether the attempt's timeout timer has already
fired.

In source order it: extracts a reset time, updates/creates the request's
bucket from the remaining-count header, arms the global block on a global 429,
then on a 429/5xx status sets the cancellation flag and pushes a retry closure
over the same `init` onto the request's bucket queue (global queue when the
bucket is absent).  `settle` is what the body-completion handlers later do for
this attempt: nothing when cancelled, otherwise reject on an error status and
resolve on success (body decoding itself is beyond the claims). -/
def finalizeRequest (buckets : List (String × Bucket)) (globalQueue : List Job)
    (block : Option ℚ) (init : Req) (status : Option Nat) (h : RespHeaders)
    (startTime now : ℚ) (cancelled0 : Bool) : FinalizeOut :=
  let reset? := extractReset h now
  let buckets1 := updateBuckets buckets init.bucketId h reset?
  let block1 :=
    if status = some 429 ∧ reset?.isSome ∧ h.xRateLimitGlobal then reset? else block
  let retry := isRetryStatus status
  let j : Job := { req := init, retryStart := some startTime }
  let pushed :=
    if retry then
      match init.bucketId with
      | some k =>
        match bLookup k buckets1 with
        | some b => (bInsert k { b with queue := b.queue ++ [j] } buckets1, globalQueue)
        | none => (buckets1, globalQueue ++ [j])
      | none => (buckets1, globalQueue ++ [j])
    else (buckets1, globalQueue)
  let cancelled := cancelled0 || retry
  { buckets := pushed.1
    globalQueue := pushed.2
    block := block1
    retried := retry
    settle :=
      if cancelled then none
      else if init.stream then some .resolved
      else if isErrorStatus status then some .rejected
      else some .resolved }

/-- The enqueue step `RESTClient.pushRequest` (src/RESTClient.ts lines
306-330), restricted to its queue/bucket effects: push onto the request's
bucket queue, creating the bucket with unknown (`Infinity`) remaining count
when it is new, else push onto the global queue.  (The subsequent
`flushBucket` / `flushGlobalBucket` trigger is modelled separately.) -/
def pushRequest (buckets : List (String × Bucket)) (globalQueue : List Job)
    (bucketId : Option String) (j : Job) (now : ℚ) :
    List (String × Bucket) × List Job :=
  match bucketId with
  | none => (buckets, globalQueue ++ [j])
  | some k =>
    match bLookup k buckets with
    | some b => (bInsert k { b with queue := b.queue ++ [j] } buckets, globalQueue)
    | none =>
      (bInsert k { remaining := none, reset := now, queue := [j], flushing := false } buckets,
       globalQueue)

/-- The externally supplied effect of dispatching one bucket-queue job
(`await finalizeRequest()`): the bucket's rate-limit fields after the response
headers were processed, the jobs the dispatch pushed back onto this bucket's
queue (the retry path), and whether the dispatch threw. -/
structure DispatchEffect where
  remaining : Option Int
  reset : ℚ
  pushed : List Job
  throws : Bool

/-- Suspension/dispatch events of a drain loop, in order. -/
inductive Ev where
  | awaitBlock
  | sleepUntil (t : ℚ)
  | dispatch
deriving DecidableEq, Repr

/-- The `while` loop of `flushBucket` (src/RESTClient.ts lines 201-214),
fuelled.  Each iteration shifts the queue head, awaits the global block,
sleeps until `reset` when `remaining === 0`, then dispatches; the `finally`
clears the `flushing` flag both when the queue empties and when a dispatch
throws.  Returns the final bucket, the event trace, and whether the loop ended
by a thrown dispatch; `none` when the fuel ran out before the loop completed. -/
def drainLoop (env : Nat → DispatchEffect) :
    Nat → Nat → Bucket → Option (Bucket × List Ev × Bool)
  | 0, _, _ => none
  | fuel + 1, i, b =>
    match b.queue with
    | [] => some ({ b with flushing := false }, [], false)
    | _ :: rest =>
      let evs :=
        Ev.awaitBlock ::
          (if b.remaining = some 0 then [Ev.sleepUntil b.reset] else []) ++ [Ev.dispatch]
      let e := env i
      let b' : Bucket :=
        { remaining := e.remaining, reset := e.reset, queue := rest ++ e.pushed,
          flushing := b.flushing }
      if e.throws then some ({ b' with flushing := false }, evs, true)
      else
        match drainLoop env fuel (i + 1) b' with
        | none => none
        | some (bf, evs', threw) => some (bf, evs ++ evs', threw)

/-- The drain trigger `RESTClient.flushBucket` (src/RESTClient.ts lines
197-215): a synchronous no-op when the bucket is already flushing, else the
drain loop runs with the flag set. -/
def flushBucket (env : Nat → DispatchEffect) (fuel : Nat) (b : Bucket) :
    Option (Bucket × List Ev × Bool) :=
  if b.flushing then some (b, [], false)
  else drainLoop env fuel 0 { b with flushing := true }

/-- The client-wide unbucketed queue state (`RESTClient.queue` /
`RESTClient.flushing`). -/
structure GlobalState where
  queue : List Job
  flushing : Bool
deriving DecidableEq, Repr

/-- The externally supplied effect of dispatching one global-queue job. -/
structure GlobalDispatchEffect where
  pushed : List Job
  throws : Bool

/-- The `while` loop of `flushGlobalBucket` (src/RESTClient.ts lines 229-239),
fuelled: identical to `drainLoop` except that no reset-time sleep exists. -/
def drainGlobalLoop (env : Nat → GlobalDispatchEffect) :
    Nat → Nat → GlobalState → Option (GlobalState × List Ev × Bool)
  | 0, _, _ => none
  | fuel + 1, i, g =>
    match g.queue with
    | [] => some ({ g with flushing := false }, [], false)
    | _ :: rest =>
      let evs := [Ev.awaitBlock, Ev.dispatch]
      let e := env i
      let g' : GlobalState := { queue := rest ++ e.pushed, flushing := g.flushing }
      if e.throws then some ({ g' with flushing := false }, evs, true)
      else
        match drainGlobalLoop env fuel (i + 1) g' with
        | none => none
        | some (gf, evs', threw) => some (gf, evs ++ evs', threw)

/-- The drain trigger `RESTClient.flushGlobalBucket` (src/RESTClient.ts lines
225-240). -/
def flushGlobalBucket (env : Nat → GlobalDispatchEffect) (fuel : Nat)
    (g : GlobalState) : Option (GlobalState × List Ev × Bool) :=
  if g.flushing then some (g, [], false)
  else drainGlobalLoop env fuel 0 { g with flushing := true }

/-- Scan of an event trace checking that every `dispatch` is preceded by an
`awaitBlock` later than the previous `dispatch`: the loop awaited the global
block signal before dispatching its next job. -/
def evOk : Bool → List Ev → Bool
  | _, [] => true
  | _, Ev.awaitBlock :: r => evOk true r
  | a, Ev.sleepUntil _ :: r => evOk a r
  | a, Ev.dispatch :: r => a && evOk false r

/-- Whether every dispatch in the trace was preceded by awaiting the global
block signal. -/
def awaitBeforeDispatch (evs : List Ev) : Bool := evOk false evs

/-- Truth of the constructor's offending-version test
`!Number.isInteger(options.apiVersion) || options.apiVersion < 0` on a
present version (src/RESTClient.ts lines 88-92). -/
def invalidApiVersion : Option ℚ → Bool
  | none => false
  | some v => !(v.den = 1) || v < 0

/-- The `RESTClient` constructor's warning behaviour (src/RESTClient.ts lines
83-107): given the process-wide `hasEmittedInvalidAPIVersionWarning` flag and
the configured version, returns the new flag value and whether this
construction emitted the advisory warning.  Construction never fails. -/
def constructClient (hasEmitted : Bool) (v : Option ℚ) : Bool × Bool :=
  if !hasEmitted && invalidApiVersion v then (true, true) else (hasEmitted, false)

/-- One construction folded over the process state: the static flag plus the
running count of advisory warnings emitted. -/
def constructStep (acc : Bool × Nat) (v : Option ℚ) : Bool × Nat :=
  let r := constructClient acc.1 v
  (r.1, acc.2 + (if r.2 then 1 else 0))

/-- A sequence of client constructions in one process, starting from the
initial (unset) static flag: final flag and total number of advisory warnings
emitted. -/
def runConstructions (vs : List (Option ℚ)) : Bool × Nat :=
  vs.foldl constructStep (false, 0)

/-! Concrete fixtures used by the witness theorems. -/

/-- A concrete prepared request on the global (bucketless) queue. -/
def reqG : Req :=
  { headers := [("User-Agent", "ua"), ("Accept-Encoding", "gzip,deflate")]
    method := "GET", path := "/api/v9/sticker-packs", host := "discord.com"
    body := none, bucketId := none, timeout := some 500, stream := false
    stack := "", port := none }

/-- A concrete prepared request routed to bucket `channels/1`. -/
def reqB : Req :=
  { reqG with bucketId := some "channels/1", path := "/api/v9/channels/1" }

/-- A fresh global-queue job for `reqG`. -/
def jobG : Job := { req := reqG, retryStart := none }

/-- A fresh bucket-queue job for `reqB`. -/
def jobB : Job := { req := reqB, retryStart := none }

/-- A dispatch environment whose dispatches succeed and push nothing. -/
def envB0 : Nat → DispatchEffect :=
  fun _ => { remaining := none, reset := 0, pushed := [], throws := false }

/-- A global dispatch environment whose dispatches succeed and push nothing. -/
def envG0 : Nat → GlobalDispatchEffect :=
  fun _ => { pushed := [], throws := false }

/-- A concrete idle bucket holding one queued job. -/
def bucket1 : Bucket :=
  { remaining := none, reset := 0, queue := [jobB], flushing := false }

/-- A concrete idle global queue holding one job. -/
def gstate1 : GlobalState := { queue := [jobG], flushing := false }

/-- Concrete headers of a globally scoped 429 response with a reset time. -/
def h429 : RespHeaders :=
  { xRateLimitReset := some 1, retryAfter := none, xRateLimitRemaining := none
    xRateLimitGlobal := true, contentType := none }

/-! Helper lemmas about the drain loops. -/

/-- Every completed run of the bucket drain loop ends with the flushing flag
cleared, whether the queue emptied or a dispatch threw. -/
theorem drainLoop_flushing_false (env : Nat → DispatchEffect) :
    ∀ (fuel i : Nat) (b : Bucket) (out : Bucket × List Ev × Bool),
      drainLoop env fuel i b = some out → out.1.flushing = false := by
  intro fuel
  induction fuel with
  | zero => intro i b out h; simp [drainLoop] at h
  | succ n ih =>
    intro i b out h
    rw [drainLoop] at h
    cases hq : b.queue with
    | nil =>
      rw [hq] at h
      simp only [Option.some.injEq] at h
      rw [← h]
    | cons hd tl =>
      rw [hq] at h
      simp only at h
      split at h
      · simp only [Option.some.injEq] at h
        rw [← h]
      · split at h
        · exact absurd h (by simp)
        · next bf evs' threw heq =>
          simp only [Option.some.injEq] at h
          have := ih (i + 1) _ _ heq
          rw [← h]
          exact this

/-- Every completed run of the global drain loop ends with the flushing flag
cleared. -/
theorem drainGlobalLoop_flushing_false (env : Nat → GlobalDispatchEffect) :
    ∀ (fuel i : Nat) (g : GlobalState) (out : GlobalState × List Ev × Bool),
      drainGlobalLoop env fuel i g = some out → out.1.flushing = false := by
  intro fuel
  induction fuel with
  | zero => intro i g out h; simp [drainGlobalLoop] at h
  | succ n ih =>
    intro i g out h
    rw [drainGlobalLoop] at h
    cases hq : g.queue with
    | nil =>
      rw [hq] at h
      simp only [Option.some.injEq] at h
      rw [← h]
    | cons hd tl =>
      rw [hq] at h
      simp only at h
      split at h
      · simp only [Option.some.injEq] at h
        rw [← h]
      · split at h
        · exact absurd h (by simp)
        · next gf evs' threw heq =>
          simp only [Option.some.injEq] at h
          have := ih (i + 1) _ _ heq
          rw [← h]
          exact this

/-- Every completed run of the bucket drain loop awaits the global block
signal before each dispatch. -/
theorem drainLoop_trace_ok (env : Nat → DispatchEffect) :
    ∀ (fuel i : Nat) (b : Bucket) (out : Bucket × List Ev × Bool),
      drainLoop env fuel i b = some out → awaitBeforeDispatch out.2.1 = true := by
  intro fuel
  induction fuel with
  | zero => intro i b out h; simp [drainLoop] at h
  | succ n ih =>
    intro i b out h
    rw [drainLoop] at h
    cases hq : b.queue with
    | nil =>
      rw [hq] at h
      simp only [Option.some.injEq] at h
      rw [← h]
      simp [awaitBeforeDispatch, evOk]
    | cons hd tl =>
      rw [hq] at h
      simp only at h
      have hmids : (if b.remaining = some 0 then [Ev.sleepUntil b.reset] else []) = [] ∨
          ∃ t, (if b.remaining = some 0 then [Ev.sleepUntil b.reset] else []) =
            [Ev.sleepUntil t] := by
        split
        · exact Or.inr ⟨b.reset, rfl⟩
        · exact Or.inl rfl
      split at h
      · simp only [Option.some.injEq] at h
        rw [← h]
        simp only [awaitBeforeDispatch]
        rcases hmids with hm | ⟨t, hm⟩ <;> rw [hm] <;> simp [evOk]
      · split at h
        · exact absurd h (by simp)
        · next bf evs' threw heq =>
          simp only [Option.some.injEq] at h
          have htail := ih (i + 1) _ _ heq
          rw [← h]
          simp only [awaitBeforeDispatch] at htail ⊢
          rcases hmids with hm | ⟨t, hm⟩ <;> rw [hm] <;> simpa [evOk] using htail

/-- Every completed run of the global drain loop awaits the global block
signal before each dispatch. -/
theorem drainGlobalLoop_trace_ok (env : Nat → GlobalDispatchEffect) :
    ∀ (fuel i : Nat) (g : GlobalState) (out : GlobalState × List Ev × Bool),
      drainGlobalLoop env fuel i g = some out → awaitBeforeDispatch out.2.1 = true := by
  intro fuel
  induction fuel with
  | zero => intro i g out h; simp [drainGlobalLoop] at h
  | succ n ih =>
    intro i g out h
    rw [drainGlobalLoop] at h
    cases hq : g.queue with
    | nil =>
      rw [hq] at h
      simp only [Option.some.injEq] at h
      rw [← h]
      simp [awaitBeforeDispatch, evOk]
    | cons hd tl =>
      rw [hq] at h
      simp only at h
      split at h
      · simp only [Option.some.injEq] at h
        rw [← h]
        simp [awaitBeforeDispatch, evOk]
      · split at h
        · exact absurd h (by simp)
        · next gf evs' threw heq =>
          simp only [Option.some.injEq] at h
          have htail := ih (i + 1) _ _ heq
          rw [← h]
          simpa [awaitBeforeDispatch, evOk] using htail

/-- C1: invoking the drain trigger (`flushBucket` for any bucket, and
`flushGlobalBucket` for the global queue) while the bucket's draining flag is
already set returns immediately with the bucket state unchanged, an empty
event trace (no job dispatched, no suspension), and no exception — the flag
check happens synchronously before any suspension point, so at most one drain
loop is active per bucket. -/
theorem flushBucket_reentrant_noop :
    (∀ (env : Nat → DispatchEffect) (fuel : Nat) (b : Bucket),
      b.flushing = true → flushBucket env fuel b = some (b, [], false)) ∧
    (∀ (env : Nat → GlobalDispatchEffect) (fuel : Nat) (g : GlobalState),
      g.flushing = true → flushGlobalBucket env fuel g = some (g, [], false)) := by
  constructor
  · intro env fuel b hb
    simp [flushBucket, hb]
  · intro env fuel g hg
    simp [flushGlobalBucket, hg]

/-- Witness for C1 at a concrete already-draining bucket and global queue. -/
theorem flushBucket_reentrant_noop_witness :
    ({ bucket1 with flushing := true } : Bucket).flushing = true ∧
    flushBucket envB0 5 { bucket1 with flushing := true } =
      some ({ bucket1 with flushing := true }, [], false) ∧
    flushGlobalBucket envG0 5 { gstate1 with flushing := true } =
      some ({ gstate1 with flushing := true }, [], false) :=
  ⟨rfl, flushBucket_reentrant_noop.1 envB0 5 _ rfl,
    flushBucket_reentrant_noop.2 envG0 5 _ rfl⟩

/-- C2: when a run of the drain loop completes — whether because its queue
emptied or because a dispatched request finalizer threw — the bucket's (and
the global queue's) flushing flag is false: the `finally` always releases the
flag, so no path leaves a bucket permanently marked draining. -/
theorem flushBucket_always_clears_flag :
    (∀ (env : Nat → DispatchEffect) (fuel : Nat) (b : Bucket)
      (out : Bucket × List Ev × Bool),
      b.flushing = false → flushBucket env fuel b = some out → out.1.flushing = false) ∧
    (∀ (env : Nat → GlobalDispatchEffect) (fuel : Nat) (g : GlobalState)
      (out : GlobalState × List Ev × Bool),
      g.flushing = false → flushGlobalBucket env fuel g = some out →
        out.1.flushing = false) := by
  constructor
  · intro env fuel b out hb h
    rw [flushBucket, hb] at h
    simp only [Bool.false_eq_true, if_false] at h
    exact drainLoop_flushing_false env fuel 0 _ _ h
  · intro env fuel g out hg h
    rw [flushGlobalBucket, hg] at h
    simp only [Bool.false_eq_true, if_false] at h
    exact drainGlobalLoop_flushing_false env fuel 0 _ _ h

/-- Witness for C2: a concrete run over a one-job queue (and one whose single
dispatch throws) ends with the flag cleared. -/
theorem flushBucket_always_clears_flag_witness :
    bucket1.flushing = false ∧
    flushBucket envB0 2 bucket1 =
      some ({ remaining := none, reset := 0, queue := [], flushing := false },
        [Ev.awaitBlock, Ev.dispatch], false) ∧
    ({ remaining := none, reset := 0, queue := [], flushing := false } : Bucket).flushing
      = false ∧
    flushGlobalBucket envG0 2 gstate1 =
      some ({ queue := [], flushing := false }, [Ev.awaitBlock, Ev.dispatch], false) ∧
    ({ queue := [], flushing := false } : GlobalState).flushing = false :=
  ⟨rfl, rfl, flushBucket_always_clears_flag.1 envB0 2 bucket1 _ rfl rfl,
    rfl, flushBucket_always_clears_flag.2 envG0 2 gstate1 _ rfl rfl⟩

/-- C4: a completed response with status 429 that carries a reset time and the
global-scope marker header arms the shared global block: the block signal
becomes the extracted reset time (its scheduled clearing instant), set
synchronously in the response handler; and every drain loop — each bucket's
and the global queue's — awaits the block signal before every dispatch, so
while the signal is set all dispatches across all queues are delayed until the
scheduled clearing time. -/
theorem globalBlock_arm_and_await :
    (∀ (buckets : List (String × Bucket)) (gq : List Job) (block : Option ℚ)
      (init : Req) (status : Option Nat) (h : RespHeaders) (st now : ℚ)
      (c0 : Bool) (r : ℚ),
      status = some 429 → h.xRateLimitGlobal = true → extractReset h now = some r →
      (finalizeRequest buckets gq block init status h st now c0).block = some r) ∧
    (∀ (env : Nat → DispatchEffect) (fuel i : Nat) (b : Bucket)
      (out : Bucket × List Ev × Bool),
      drainLoop env fuel i b = some out → awaitBeforeDispatch out.2.1 = true) ∧
    (∀ (env : Nat → GlobalDispatchEffect) (fuel i : Nat) (g : GlobalState)
      (out : GlobalState × List Ev × Bool),
      drainGlobalLoop env fuel i g = some out → awaitBeforeDispatch out.2.1 = true) := by
  refine ⟨?_, drainLoop_trace_ok, drainGlobalLoop_trace_ok⟩
  intro buckets gq block init status h st now c0 r hs hg hr
  simp [finalizeRequest, hs, hg, hr]

/-- Witness for C4 at a concrete global 429 response and concrete drain
runs. -/
theorem globalBlock_arm_and_await_witness :
    (finalizeRequest [] [] none reqB (some 429) h429 0 0 false).block = some 1000 ∧
    awaitBeforeDispatch [Ev.awaitBlock, Ev.dispatch] = true :=
  ⟨globalBlock_arm_and_await.1 [] [] none reqB (some 429) h429 0 0 false 1000 rfl rfl
      (by norm_num [extractReset, h429]),
    globalBlock_arm_and_await.2.1 envB0 2 0 bucket1
      ({ remaining := none, reset := 0, queue := [], flushing := false },
        [Ev.awaitBlock, Ev.dispatch], false) rfl⟩

/-! Helper lemmas about the bucket map. -/

/-- Lookup after an in-place update at the same key. -/
theorem bLookup_bInsert_self (k : String) (b : Bucket) :
    ∀ m, bLookup k (bInsert k b m) = some b := by
  intro m
  induction m with
  | nil => simp [bInsert, bLookup]
  | cons p ps ih =>
    by_cases hp : p.1 = k
    · simp [bInsert, bLookup, hp]
    · simp [bInsert, bLookup, hp, ih]

/-- The header-driven bucket update never touches a bucket's queue: an
existing bucket keeps its queue (and its flushing flag). -/
theorem updateBuckets_preserves_queue (m : List (String × Bucket)) (k : String)
    (h : RespHeaders) (rst? : Option ℚ) (b0 : Bucket)
    (hb : bLookup k m = some b0) :
    ∃ b1, bLookup k (updateBuckets m (some k) h rst?) = some b1 ∧
      b1.queue = b0.queue ∧ b1.flushing = b0.flushing := by
  cases hrem : h.xRateLimitRemaining with
  | none =>
    refine ⟨b0, ?_, rfl, rfl⟩
    simpa [updateBuckets, hrem] using hb
  | some rem =>
    cases hrst : rst? with
    | none =>
      refine ⟨b0, ?_, rfl, rfl⟩
      simpa [updateBuckets, hrem] using hb
    | some rst =>
      refine ⟨{ b0 with remaining := some rem, reset := rst }, ?_, rfl, rfl⟩
      simp [updateBuckets, hrem, hrst, hb, bLookup_bInsert_self]

/-- The retry job pushed by the 429/5xx path of `finalizeRequest`. -/
def retryJob (init : Req) (startTime : ℚ) : Job :=
  { req := init, retryStart := some startTime }

/-- C3: a dispatched request whose response status is 429 or at least 500 does
not settle the caller's promise from that attempt (the cancellation flag
suppresses the body handlers, so the transient body is discarded and the
completion cannot fire twice); instead the very same prepared request —
identical method, path, headers, body and bucket key — is re-enqueued as a
retry job at the back of its original queue: the bucket's queue when the
request carries a bucket key (for every bucket present in the map, which
`pushRequest` guarantees for every dispatched request), otherwise the global
queue.  When the retry job is later dispatched at time `t`, it re-finalizes
the request with its timeout budget decremented by the wall-clock time elapsed
since the failed attempt started. -/
theorem retry_requeues_same_request :
    ∀ (buckets : List (String × Bucket)) (gq : List Job) (block : Option ℚ)
      (init : Req) (status : Option Nat) (h : RespHeaders) (startTime now : ℚ)
      (c0 : Bool),
      isRetryStatus status = true →
      (finalizeRequest buckets gq block init status h startTime now c0).settle = none ∧
      (finalizeRequest buckets gq block init status h startTime now c0).retried = true ∧
      (init.bucketId = none →
        (finalizeRequest buckets gq block init status h startTime now c0).globalQueue =
          gq ++ [retryJob init startTime]) ∧
      (∀ k b0, init.bucketId = some k → bLookup k buckets = some b0 →
        (∃ b1,
          bLookup k (finalizeRequest buckets gq block init status h startTime now c0).buckets
            = some b1 ∧ b1.queue = b0.queue ++ [retryJob init startTime]) ∧
        (finalizeRequest buckets gq block init status h startTime now c0).globalQueue = gq) ∧
      (∀ t : ℚ,
        ((retryJob init startTime).reqAt t).method = init.method ∧
        ((retryJob init startTime).reqAt t).path = init.path ∧
        ((retryJob init startTime).reqAt t).headers = init.headers ∧
        ((retryJob init startTime).reqAt t).body = init.body ∧
        ((retryJob init startTime).reqAt t).bucketId = init.bucketId ∧
        (init.stream = false → ∀ T, init.timeout = some T →
          ((retryJob init startTime).reqAt t).timeout = some (T - (t - startTime)))) := by
  intro buckets gq block init status h startTime now c0 hr
  refine ⟨?_, ?_, ?_, ?_, ?_⟩
  · simp [finalizeRequest, hr]
  · simp [finalizeRequest, hr]
  · intro hnone
    simp [finalizeRequest, hr, hnone, retryJob]
  · intro k b0 hk hb0
    obtain ⟨b1, hb1, hq1, -⟩ :=
      updateBuckets_preserves_queue buckets k h (extractReset h now) b0 hb0
    constructor
    · refine ⟨{ b1 with queue := b1.queue ++ [retryJob init startTime] }, ?_, by rw [hq1]⟩
      simp [finalizeRequest, hr, hk, hb1, retryJob, bLookup_bInsert_self]
    · simp [finalizeRequest, hr, hk, hb1, retryJob]
  · intro t
    refine ⟨rfl, rfl, rfl, rfl, rfl, ?_⟩
    intro hs T hT
    simp [retryJob, Job.reqAt, hs, hT]

/-- Witness for C3: a concrete 502 response to the bucketed request `reqB`
whose bucket holds one other queued job. -/
theorem retry_requeues_same_request_witness :
    isRetryStatus (some 502) = true ∧
    (finalizeRequest [("channels/1", bucket1)] [] none reqB (some 502) h429 0 20
        false).settle = none ∧
    bLookup "channels/1"
        (finalizeRequest [("channels/1", bucket1)] [] none reqB (some 502) h429 0 20
          false).buckets =
      some { bucket1 with queue := [jobB, retryJob reqB 0] } ∧
    ((retryJob reqB 0).reqAt 20).timeout = some 480 := by
  have h :=
    retry_requeues_same_request [("channels/1", bucket1)] [] none reqB (some 502)
      h429 0 20 false (by decide)
  refine ⟨by decide, h.1, ?_, ?_⟩
  · obtain ⟨⟨b1, hb1, hq1⟩, -⟩ := h.2.2.2.1 "channels/1" bucket1 rfl rfl
    rw [hb1]
    have : b1 = { bucket1 with queue := [jobB, retryJob reqB 0] } := by
      have hb1' : bLookup "channels/1"
          (finalizeRequest [("channels/1", bucket1)] [] none reqB (some 502) h429 0 20
            false).buckets = some { bucket1 with queue := [jobB, retryJob reqB 0] } := by rfl
      rw [hb1] at hb1'
      exact Option.some.injEq _ _ ▸ hb1'.symm ▸ rfl
    rw [this]
  · have := (h.2.2.2.2 20).2.2.2.2.2 rfl 500 rfl
    rw [this]
    norm_num

/-- Concrete headers carrying a remaining count but no reset-time header. -/
def hRemOnly : RespHeaders :=
  { xRateLimitReset := none, retryAfter := none, xRateLimitRemaining := some 5
    xRateLimitGlobal := false, contentType := none }

/-- Concrete headers carrying only a relative retry-after of 3 seconds. -/
def hRetryAfter : RespHeaders :=
  { xRateLimitReset := none, retryAfter := some 3, xRateLimitRemaining := none
    xRateLimitGlobal := false, contentType := none }

/-- Concrete headers carrying both a remaining count and an epoch reset. -/
def hRemAndReset : RespHeaders :=
  { xRateLimitReset := some 1, retryAfter := none, xRateLimitRemaining := some 5
    xRateLimitGlobal := false, contentType := none }

/-- Counterexample to C5 as stated: a response whose headers carry a
remaining count (5) for a request with a bucket key (`channels/1`) but no
reset-time header leaves the bucket store untouched — the code additionally
requires an extracted reset time before it updates or creates the bucket. -/
theorem bucket_update_needs_reset_counterexample :
    reqB.bucketId = some "channels/1" ∧
    hRemOnly.xRateLimitRemaining = some 5 ∧
    extractReset hRemOnly 0 = none ∧
    bLookup "channels/1"
      (finalizeRequest [] [] none reqB (some 200) hRemOnly 0 0 false).buckets = none :=
  ⟨rfl, rfl, rfl, rfl⟩

/-- C5 (amended): the reset time of a completed response is extracted by
preferring the fractional-seconds-since-epoch header (scaled to
milliseconds), otherwise deriving it from the relative retry-after header
plus the current time, otherwise none; and whenever a remaining-count
header, the request's bucket key, AND an extracted reset time are all
present, that bucket's `remaining` and `reset` are updated (or the bucket is
created) from the header values.  Buckets created on enqueue start with an
unknown (infinite) remaining count, so this response path is the only one
that makes `remaining` known. -/
theorem rateLimit_header_update :
    (∀ (h : RespHeaders) (now r : ℚ), h.xRateLimitReset = some r →
      extractReset h now = some (r * 1000)) ∧
    (∀ (h : RespHeaders) (now : ℚ) (a : Int), h.xRateLimitReset = none →
      h.retryAfter = some a → extractReset h now = some ((a : ℚ) * 1000 + now)) ∧
    (∀ (h : RespHeaders) (now : ℚ), h.xRateLimitReset = none → h.retryAfter = none →
      extractReset h now = none) ∧
    (∀ (buckets : List (String × Bucket)) (gq : List Job) (block : Option ℚ)
      (init : Req) (status : Option Nat) (h : RespHeaders) (st now : ℚ) (c0 : Bool)
      (k : String) (rem : Int) (rst : ℚ),
      init.bucketId = some k → h.xRateLimitRemaining = some rem →
      extractReset h now = some rst →
      ∃ b, bLookup k
          (finalizeRequest buckets gq block init status h st now c0).buckets = some b ∧
        b.remaining = some rem ∧ b.reset = rst) ∧
    (∀ (buckets : List (String × Bucket)) (gq : List Job) (k : String) (j : Job)
      (now : ℚ), bLookup k buckets = none →
      ∃ b, bLookup k (pushRequest buckets gq (some k) j now).1 = some b ∧
        b.remaining = none ∧ b.reset = now ∧ b.queue = [j]) := by
  refine ⟨?_, ?_, ?_, ?_, ?_⟩
  · intro h now r hr
    simp [extractReset, hr]
  · intro h now a h1 h2
    simp [extractReset, h1, h2]
  · intro h now h1 h2
    simp [extractReset, h1, h2]
  · intro buckets gq block init status h st now c0 k rem rst hk hrem hrst
    have hup : ∃ b1, bLookup k (updateBuckets buckets (some k) h (extractReset h now))
        = some b1 ∧ b1.remaining = some rem ∧ b1.reset = rst := by
      cases hb : bLookup k buckets with
      | none =>
        refine ⟨{ remaining := some rem, reset := rst, queue := [], flushing := false },
          ?_, rfl, rfl⟩
        simp [updateBuckets, hrem, hrst, hb, bLookup_bInsert_self]
      | some b =>
        refine ⟨{ b with remaining := some rem, reset := rst }, ?_, rfl, rfl⟩
        simp [updateBuckets, hrem, hrst, hb, bLookup_bInsert_self]
    obtain ⟨b1, hb1, hbrem, hbrst⟩ := hup
    by_cases hretry : isRetryStatus status = true
    · refine ⟨{ b1 with queue := b1.queue ++ [retryJob init st] }, ?_, hbrem, hbrst⟩
      simp [finalizeRequest, hretry, hk, hb1, retryJob, bLookup_bInsert_self]
    · refine ⟨b1, ?_, hbrem, hbrst⟩
      simp only [Bool.not_eq_true] at hretry
      simp [finalizeRequest, hretry, hk, hb1]
  · intro buckets gq k j now hb
    refine ⟨{ remaining := none, reset := now, queue := [j], flushing := false }, ?_,
      rfl, rfl, rfl⟩
    simp [pushRequest, hb, bLookup_bInsert_self]

/-- Witness for C5 (amended) at concrete headers, a concrete response and a
concrete enqueue. -/
theorem rateLimit_header_update_witness :
    extractReset h429 7 = some 1000 ∧
    extractReset hRetryAfter 7 = some 3007 ∧
    extractReset hRemOnly 7 = none ∧
    bLookup "channels/1"
        (finalizeRequest [] [] none reqB (some 200) hRemAndReset 0 7 false).buckets =
      some { remaining := some 5, reset := 1000, queue := [], flushing := false } ∧
    bLookup "channels/1" (pushRequest [] [] (some "channels/1") jobB 7).1 =
      some { remaining := none, reset := 7, queue := [jobB], flushing := false } := by
  refine ⟨?_, ?_, ?_, ?_, ?_⟩
  · have := rateLimit_header_update.1 h429 7 1 rfl
    rw [this]; norm_num
  · have := rateLimit_header_update.2.1 hRetryAfter 7 3 rfl rfl
    rw [this]; norm_num
  · exact rateLimit_header_update.2.2.1 hRemOnly 7 rfl rfl
  · obtain ⟨b, hb, h1, h2⟩ :=
      rateLimit_header_update.2.2.2.1 [] [] none reqB (some 200) hRemAndReset 0 7 false
        "channels/1" 5 1000 rfl rfl (by norm_num [extractReset, hRemAndReset])
    norm_num [finalizeRequest, updateBuckets, extractReset, hRemAndReset, reqB, reqG,
      isRetryStatus, bLookup, bInsert]
  · obtain ⟨b, hb, h1, h2, h3⟩ :=
      rateLimit_header_update.2.2.2.2 [] [] "channels/1" jobB 7 rfl
    rfl

/-! Helper lemmas about the header map. -/

/-- Lookup after a set at the same key. -/
theorem hGet_hSet_self (k v : String) : ∀ hs, hGet k (hSet k v hs) = some v := by
  intro hs
  induction hs with
  | nil => simp [hSet, hGet]
  | cons p ps ih =>
    by_cases hp : p.1 = k
    · simp [hSet, hGet, hp]
    · simp [hSet, hGet, hp, ih]

/-- Lookup after a set at a different key. -/
theorem hGet_hSet_ne (n k v : String) (hnk : n ≠ k) :
    ∀ hs, hGet n (hSet k v hs) = hGet n hs := by
  have hkn : ¬k = n := fun h => hnk h.symm
  intro hs
  induction hs with
  | nil => simp [hSet, hGet, hkn]
  | cons p ps ih =>
    by_cases hp : p.1 = k
    · simp [hSet, hGet, hp, hkn]
    · simp [hSet, hGet, hp, ih]

/-- Lookup in an object-spread merge: the last caller entry for the key wins,
and the base value shows through only when the caller never writes the key. -/
theorem hGet_mergeHeaders (n : String) :
    ∀ (ps base : List (String × String)),
      hGet n (mergeHeaders base ps) =
        match lastVal n ps with
        | some v => some v
        | none => hGet n base := by
  intro ps
  induction ps with
  | nil => intro base; simp [mergeHeaders, lastVal]
  | cons p ps ih =>
    intro base
    have hfold : mergeHeaders base (p :: ps) = mergeHeaders (hSet p.1 p.2 base) ps := by
      simp [mergeHeaders]
    rw [hfold, ih]
    cases hlast : lastVal n ps with
    | some v => simp [lastVal, hlast]
    | none =>
      by_cases hp : p.1 = n
      · subst hp
        simp [lastVal, hlast, hGet_hSet_self]
      · simp [lastVal, hlast, hp, hGet_hSet_ne n p.1 p.2 (fun h => hp h.symm)]

/-- Characterization of a successful `prepareRequest`: the produced record,
with the header stages (defaults, caller spread, Authorization, Content-Type)
made explicit. -/
theorem prepareRequest_ok_spec (c : RESTClientOptions) (method path : String)
    (opts : RequestOptions) (sr : Bool) (stack : String) (r : Req)
    (h : prepareRequest c method path opts sr stack = .ok r) :
    ∃ hs1,
      ((opts.auth = false ∧ hs1 = mergeHeaders (defaultHeaders c) opts.headers) ∨
       (∃ a, opts.auth = true ∧ authOf c = .ok a ∧
         hs1 = hSet "Authorization" a (mergeHeaders (defaultHeaders c) opts.headers))) ∧
      r = { headers :=
              if ctCond opts.body then hSet "Content-Type" "application/json" hs1 else hs1
            method := method
            path := "/api/v" ++ versionString c.apiVersion ++ path ++
              (match opts.queryString with
               | some q => "?" ++ q
               | none => "")
            host := c.host.getD "discord.com"
            body :=
              match opts.body with
              | none => none
              | some (.byteStream i) => some (.fromStream i)
              | some (.str s) => some (.fromStr s)
              | some (.buf bs) => some (.fromBytes bs)
              | some (.json j) => some (.fromStr (jsonStringify j))
            timeout := resolveTimeout opts c
            bucketId := getRateLimitBucket path
            stack := stack
            port := c.port
            stream := sr } := by
  cases hauth : opts.auth with
  | false =>
    refine ⟨mergeHeaders (defaultHeaders c) opts.headers, Or.inl ⟨rfl, rfl⟩, ?_⟩
    rw [prepareRequest, hauth] at h
    simp only [Bool.false_eq_true, if_false, Except.ok.injEq] at h
    exact h.symm
  | true =>
    cases hA : authOf c with
    | error e =>
      rw [prepareRequest, hauth] at h
      simp [hA, Except.map] at h
    | ok a =>
      refine ⟨hSet "Authorization" a (mergeHeaders (defaultHeaders c) opts.headers),
        Or.inr ⟨a, rfl, rfl, rfl⟩, ?_⟩
      rw [prepareRequest, hauth] at h
      simp only [hA, if_true, Except.map, Except.ok.injEq] at h
      exact h.symm

/-- The prepared form of a default-configured POST of a structured body. -/
def reqJsonEx : Req :=
  { headers := [("User-Agent", userAgent {}), ("Accept-Encoding", "gzip,deflate"),
      ("Content-Type", "application/json")]
    method := "POST", path := "/api/v9/x", host := "discord.com"
    body := some (.fromStr (jsonStringify (Json.obj [("content", Json.str "hi")])))
    bucketId := none, timeout := none, stream := false, stack := "", port := none }

/-- The prepared form of a default-configured POST of a raw buffer body. -/
def reqBufEx : Req :=
  { headers := [("User-Agent", userAgent {}), ("Accept-Encoding", "gzip,deflate")]
    method := "POST", path := "/api/v9/x", host := "discord.com"
    body := some (.fromBytes [1, 2])
    bucketId := none, timeout := none, stream := false, stack := "", port := none }

/-- The prepared form of a default-configured POST of a stream body. -/
def reqStreamEx : Req :=
  { headers := [("User-Agent", userAgent {}), ("Accept-Encoding", "gzip,deflate"),
      ("Content-Type", "application/json")]
    method := "POST", path := "/api/v9/x", host := "discord.com"
    body := some (.fromStream 0)
    bucketId := none, timeout := none, stream := true, stack := "", port := none }

/-- C7: a request whose body is a structured value (a plain object or array)
is prepared with a wire body equal to the JSON serialization of that value and
a `Content-Type: application/json` header; a request whose body is a raw byte
buffer is prepared with the bytes passed through unmodified and with no
content-type header injected (the prepared content-type is exactly whatever
the caller's headers last set, absent otherwise). -/
theorem body_serialization :
    ∀ (c : RESTClientOptions) (method path : String) (opts : RequestOptions)
      (sr : Bool) (stack : String) (r : Req),
      prepareRequest c method path opts sr stack = .ok r →
      (∀ j, opts.body = some (Body.json j) →
        r.body = some (WireBody.fromStr (jsonStringify j)) ∧
        hGet "Content-Type" r.headers = some "application/json") ∧
      (∀ bs, opts.body = some (Body.buf bs) →
        r.body = some (WireBody.fromBytes bs) ∧
        hGet "Content-Type" r.headers = lastVal "Content-Type" opts.headers) := by
  intro c method path opts sr stack r h
  obtain ⟨hs1, hcase, hr⟩ := prepareRequest_ok_spec c method path opts sr stack r h
  constructor
  · intro j hj
    subst hr
    refine ⟨by simp [hj], by simp [hj, ctCond, hGet_hSet_self]⟩
  · intro bs hb
    subst hr
    refine ⟨by simp [hb], ?_⟩
    simp only [hb]
    have hct : ctCond (some (Body.buf bs)) = false := rfl
    simp only [hct, Bool.false_eq_true, if_false]
    have hbase : hGet "Content-Type" (defaultHeaders c) = none := by
      simp [defaultHeaders, hGet]
    rcases hcase with ⟨-, h1⟩ | ⟨a, -, -, h1⟩
    · subst h1
      rw [hGet_mergeHeaders, hbase]
      cases lastVal "Content-Type" opts.headers <;> rfl
    · subst h1
      rw [hGet_hSet_ne "Content-Type" "Authorization" a (by decide),
        hGet_mergeHeaders, hbase]
      cases lastVal "Content-Type" opts.headers <;> rfl

/-- Witness for C7: preparing a structured body and a raw buffer body. -/
theorem body_serialization_witness :
    prepareRequest {} "POST" "/x"
        { body := some (.json (Json.obj [("content", Json.str "hi")])) } false "" =
      .ok reqJsonEx ∧
    jsonStringify (Json.obj [("content", Json.str "hi")]) = "\x7b\"content\":\"hi\"\x7d" ∧
    reqJsonEx.body =
      some (WireBody.fromStr (jsonStringify (Json.obj [("content", Json.str "hi")]))) ∧
    hGet "Content-Type" reqJsonEx.headers = some "application/json" ∧
    prepareRequest {} "POST" "/x" { body := some (.buf [1, 2]) } false "" = .ok reqBufEx ∧
    reqBufEx.body = some (WireBody.fromBytes [1, 2]) ∧
    hGet "Content-Type" reqBufEx.headers = none := by
  refine ⟨rfl, rfl, ?_, ?_, rfl, ?_, ?_⟩
  · exact ((body_serialization {} "POST" "/x"
      { body := some (.json (Json.obj [("content", Json.str "hi")])) } false "" reqJsonEx
      rfl).1 _ rfl).1
  · exact ((body_serialization {} "POST" "/x"
      { body := some (.json (Json.obj [("content", Json.str "hi")])) } false "" reqJsonEx
      rfl).1 _ rfl).2
  · exact ((body_serialization {} "POST" "/x" { body := some (.buf [1, 2]) } false ""
      reqBufEx rfl).2 _ rfl).1
  · exact (((body_serialization {} "POST" "/x" { body := some (.buf [1, 2]) } false ""
      reqBufEx rfl).2 _ rfl).2).trans rfl

/-- C10: a request whose body is a readable byte stream is prepared with the
stream passed through unchanged as the wire body, and — because the
content-type test only excludes `Buffer` instances — with an injected
`Content-Type: application/json` header. -/
theorem stream_body_content_type :
    ∀ (c : RESTClientOptions) (method path : String) (opts : RequestOptions)
      (sr : Bool) (stack : String) (r : Req) (id : Nat),
      prepareRequest c method path opts sr stack = .ok r →
      opts.body = some (Body.byteStream id) →
      hGet "Content-Type" r.headers = some "application/json" ∧
      r.body = some (WireBody.fromStream id) := by
  intro c method path opts sr stack r id h hb
  obtain ⟨hs1, hcase, hr⟩ := prepareRequest_ok_spec c method path opts sr stack r h
  subst hr
  exact ⟨by simp [hb, ctCond, hGet_hSet_self], by simp [hb]⟩

/-- Witness for C10: preparing a stream body. -/
theorem stream_body_content_type_witness :
    prepareRequest {} "POST" "/x" { body := some (.byteStream 0) } true "" =
      .ok reqStreamEx ∧
    hGet "Content-Type" reqStreamEx.headers = some "application/json" ∧
    reqStreamEx.body = some (WireBody.fromStream 0) := by
  refine ⟨rfl, ?_, ?_⟩
  · exact (stream_body_content_type {} "POST" "/x" { body := some (.byteStream 0) }
      true "" reqStreamEx 0 rfl rfl).1
  · exact (stream_body_content_type {} "POST" "/x" { body := some (.byteStream 0) }
      true "" reqStreamEx 0 rfl rfl).2

/-- The prepared form of an authenticated GET with no caller headers. -/
def reqAuthEx : Req :=
  { headers := [("User-Agent", userAgent { token := some "t" }),
      ("Accept-Encoding", "gzip,deflate"), ("Authorization", "Bot t")]
    method := "GET", path := "/api/v9/x", host := "discord.com", body := none
    bucketId := none, timeout := none, stream := false, stack := "", port := none }

/-- Options carrying a caller Content-Type alongside a structured body. -/
def optsCT : RequestOptions :=
  { headers := [("Content-Type", "text/plain")], body := some (.json (Json.obj [])) }

/-- The prepared form of `optsCT`: the injected JSON content-type overwrote
the caller's value. -/
def reqCTEx : Req :=
  { headers := [("User-Agent", userAgent {}), ("Accept-Encoding", "gzip,deflate"),
      ("Content-Type", "application/json")]
    method := "POST", path := "/api/v9/x", host := "discord.com"
    body := some (.fromStr "\x7b\x7d")
    bucketId := none, timeout := none, stream := false, stack := "", port := none }

/-- Counterexample to C8 as stated: the prepared headers are not always the
defaults merged with the caller's headers with the caller winning — an
authenticated request gains an injected Authorization entry absent from that
merge, and a caller-supplied Content-Type loses to the Content-Type injected
for a structured body. -/
theorem header_merge_counterexample :
    prepareRequest { token := some "t" } "GET" "/x" { auth := true } false "" =
      .ok reqAuthEx ∧
    reqAuthEx.headers ≠
      mergeHeaders (defaultHeaders { token := some "t" }) ([] : List (String × String)) ∧
    prepareRequest {} "POST" "/x" optsCT false "" = .ok reqCTEx ∧
    lastVal "Content-Type" optsCT.headers = some "text/plain" ∧
    hGet "Content-Type" reqCTEx.headers = some "application/json" :=
  ⟨rfl, by decide, rfl, rfl, rfl⟩

/-- C8 (amended): the prepared headers start from the default headers (the
constant product-identifier User-Agent and the compression-acceptance
Accept-Encoding header) with the caller's headers spread over them
afterwards, so on any header name the caller supplies — in particular on a
conflict with the two defaults — the caller's (last) value wins and the
default value shows through only when the caller never writes the name; the
prepared headers are exactly this merge whenever no later injection applies
(no auth flag, body not a non-Buffer object), while Authorization and
Content-Type injections are applied after the merge. -/
theorem header_merge_caller_wins :
    ∀ (c : RESTClientOptions) (method path : String) (opts : RequestOptions)
      (sr : Bool) (stack : String) (r : Req),
      prepareRequest c method path opts sr stack = .ok r →
      (∀ n, hGet n (mergeHeaders (defaultHeaders c) opts.headers) =
        match lastVal n opts.headers with
        | some v => some v
        | none => hGet n (defaultHeaders c)) ∧
      (opts.auth = false → ctCond opts.body = false →
        r.headers = mergeHeaders (defaultHeaders c) opts.headers) := by
  intro c method path opts sr stack r h
  obtain ⟨hs1, hcase, hr⟩ := prepareRequest_ok_spec c method path opts sr stack r h
  refine ⟨fun n => hGet_mergeHeaders n opts.headers (defaultHeaders c), ?_⟩
  intro hauth hct
  rcases hcase with ⟨-, h1⟩ | ⟨a, ha, -, -⟩
  · subst hr
    simp [hct, h1]
  · rw [hauth] at ha
    exact absurd ha (by simp)

/-- Options overriding the default User-Agent header. -/
def optsUA : RequestOptions := { headers := [("User-Agent", "custom")] }

/-- The prepared form of `optsUA`: the caller's User-Agent replaced the
default in place. -/
def reqUAEx : Req :=
  { headers := [("User-Agent", "custom"), ("Accept-Encoding", "gzip,deflate")]
    method := "GET", path := "/api/v9/x", host := "discord.com", body := none
    bucketId := none, timeout := none, stream := false, stack := "", port := none }

/-- Witness for C8 (amended): a caller-supplied User-Agent wins over the
default, and with no injections the prepared headers equal the merge. -/
theorem header_merge_caller_wins_witness :
    prepareRequest {} "GET" "/x" optsUA false "" = .ok reqUAEx ∧
    hGet "User-Agent" (mergeHeaders (defaultHeaders {}) optsUA.headers) = some "custom" ∧
    reqUAEx.headers = mergeHeaders (defaultHeaders {}) optsUA.headers :=
  ⟨rfl,
    ((header_merge_caller_wins {} "GET" "/x" optsUA false "" reqUAEx rfl).1
        "User-Agent").trans rfl,
    (header_merge_caller_wins {} "GET" "/x" optsUA false "" reqUAEx rfl).2 rfl rfl⟩

/-- Counterexample to C9 as stated: constructing with API version 0 — a
non-positive integer — emits no advisory (the code tests `< 0`, not `<= 0`),
and two constructions with distinct offending versions (-3 then -5) emit one
advisory in total, not one per distinct offending configuration. -/
theorem apiVersion_warning_counterexample :
    constructClient false (some 0) = (false, false) ∧
    invalidApiVersion (some (-3)) = true ∧
    invalidApiVersion (some (-5)) = true ∧
    runConstructions [some (-3), some (-5)] = (true, 1) := by
  refine ⟨by decide, by decide, by decide, by decide⟩

/-- Total advisory count of a construction fold, bounded by one plus nothing
when the static flag is already set. -/
theorem runConstructions_bound :
    ∀ (vs : List (Option ℚ)) (st : Bool) (n : Nat),
      (vs.foldl constructStep (st, n)).2 ≤ n + (if st then 0 else 1) := by
  intro vs
  induction vs with
  | nil => intro st n; cases st <;> simp
  | cons v vs ih =>
    intro st n
    cases st with
    | true =>
      have hstep : constructStep (true, n) v = (true, n) := by
        simp [constructStep, constructClient]
      rw [List.foldl_cons, hstep]
      simpa using ih true n
    | false =>
      cases hv : invalidApiVersion v with
      | true =>
        have hstep : constructStep (false, n) v = (true, n + 1) := by
          simp [constructStep, constructClient, hv]
        rw [List.foldl_cons, hstep]
        simpa using ih true (n + 1)
      | false =>
        have hstep : constructStep (false, n) v = (false, n) := by
          simp [constructStep, constructClient, hv]
        rw [List.foldl_cons, hstep]
        exact ih false n

/-- C9 (amended): a client constructed with a non-integer or strictly
negative API version triggers a process-wide advisory warning rather than a
failure, and only the first such construction in the process emits it: a
construction warns exactly when the static flag is still unset and the
version is offending, construction with version 0 (a non-positive integer)
never warns, and any sequence of constructions emits at most one advisory in
total — one per process, independent of how many distinct offending
configurations occur, and independent of requests (which never touch the
flag). -/
theorem apiVersion_warning_once :
    (∀ v, invalidApiVersion v = true → constructClient false v = (true, true)) ∧
    (∀ (st : Bool) (v : Option ℚ), (constructClient st v).2 = true →
      st = false ∧ invalidApiVersion v = true) ∧
    (∀ st : Bool, constructClient st (some 0) = (st, false)) ∧
    (∀ vs : List (Option ℚ), (runConstructions vs).2 ≤ 1) := by
  refine ⟨?_, ?_, ?_, ?_⟩
  · intro v hv
    simp [constructClient, hv]
  · intro st v h
    cases st with
    | true => simp [constructClient] at h
    | false =>
      cases hv : invalidApiVersion v with
      | true => exact ⟨rfl, rfl⟩
      | false => simp [constructClient, hv] at h
  · intro st
    cases st <;> decide
  · intro vs
    simpa [runConstructions] using runConstructions_bound vs false 0

/-- Witness for C9 (amended) at concrete offending and non-offending
versions. -/
theorem apiVersion_warning_once_witness :
    invalidApiVersion (some (-3)) = true ∧
    constructClient false (some (-3)) = (true, true) ∧
    constructClient true (some 0) = (true, false) ∧
    (runConstructions [some (-3), some (-5)]).2 ≤ 1 :=
  ⟨by decide, apiVersion_warning_once.1 (some (-3)) (by decide),
    apiVersion_warning_once.2.2.1 true,
    apiVersion_warning_once.2.2.2 [some (-3), some (-5)]⟩

/-! Lemmas characterizing the routing parser. -/

/-- Unfolding lemma for `dropLit` on two cons cells. -/
theorem dropLit_cons (l : Char) (ls : List Char) (c : Char) (cs : List Char) :
    dropLit (l :: ls) (c :: cs) = if c = l then dropLit ls cs else none := rfl

/-- Consuming a literal succeeds exactly on strings extending it. -/
theorem dropLit_iff : ∀ (pre cs r : List Char), dropLit pre cs = some r ↔ cs = pre ++ r := by
  intro pre
  induction pre with
  | nil => intro cs r; simp [dropLit]
  | cons l ls ih =>
    intro cs r
    cases cs with
    | nil => simp [dropLit]
    | cons c cs' =>
      rw [dropLit_cons]
      by_cases hc : c = l
      · subst hc
        simp [ih]
      · simp [hc]

/-- The split produced by `takeDigits`: the input is the digit run followed by
the remainder, the run is all digits, and the remainder starts with a
non-digit (if anything). -/
theorem takeDigits_spec :
    ∀ cs : List Char,
      cs = (takeDigits cs).1 ++ (takeDigits cs).2 ∧
      (∀ c ∈ (takeDigits cs).1, c.isDigit = true) ∧
      (∀ c, (takeDigits cs).2.head? = some c → c.isDigit = false) := by
  intro cs
  induction cs with
  | nil => simp [takeDigits]
  | cons c cs' ih =>
    by_cases hc : c.isDigit
    · obtain ⟨h1, h2, h3⟩ := ih
      refine ⟨?_, ?_, ?_⟩
      · simpa [takeDigits, hc] using h1
      · intro x hx
        rw [takeDigits] at hx
        simp only [hc, if_true, List.mem_cons] at hx
        rcases hx with rfl | hx
        · exact hc
        · exact h2 x hx
      · intro x hx
        rw [takeDigits] at hx
        simp only [hc, if_true] at hx
        exact h3 x hx
    · refine ⟨by simp [takeDigits, hc], by simp [takeDigits, hc], ?_⟩
      intro x hx
      simp only [takeDigits, hc, if_false, List.head?_cons, Option.some.injEq,
        Bool.false_eq_true] at hx
      rw [← hx]
      simpa using hc

/-- Greedy digit-taking is determined by any split into a digit run followed
by a non-digit-headed remainder. -/
theorem takeDigits_unique :
    ∀ (d r : List Char), (∀ c ∈ d, c.isDigit = true) →
      (∀ c, r.head? = some c → c.isDigit = false) →
      takeDigits (d ++ r) = (d, r) := by
  intro d
  induction d with
  | nil =>
    intro r _ hr
    cases r with
    | nil => rfl
    | cons c r' =>
      have := hr c rfl
      simp [takeDigits, this]
  | cons c d' ih =>
    intro r hd hr
    have hc : c.isDigit = true := hd c (by simp)
    have := ih r (fun x hx => hd x (by simp [hx])) hr
    simp [takeDigits, hc, this]

/-- Characterization of `matchIdAfter`: success exactly on a literal prefix
followed by a nonempty maximal digit run. -/
theorem matchIdAfter_iff (pre cs d r : List Char) :
    matchIdAfter pre cs = some (d, r) ↔
      (cs = pre ++ d ++ r ∧ d ≠ [] ∧ (∀ c ∈ d, c.isDigit = true) ∧
        (∀ c, r.head? = some c → c.isDigit = false)) := by
  constructor
  · intro h
    rw [matchIdAfter] at h
    cases hdrop : dropLit pre cs with
    | none => rw [hdrop] at h; exact absurd h (by simp)
    | some cs' =>
      rw [hdrop] at h
      simp only at h
      split at h
      · exact absurd h (by simp)
      · next hne =>
        simp only [Option.some.injEq] at h
        obtain ⟨h1, h2, h3⟩ := takeDigits_spec cs'
        have hcs : cs = pre ++ cs' := (dropLit_iff pre cs cs').mp hdrop
        have hd : (takeDigits cs').1 = d := by rw [h]
        have hrr : (takeDigits cs').2 = r := by rw [h]
        refine ⟨?_, ?_, ?_, ?_⟩
        · rw [hcs, h1, hd, hrr, List.append_assoc]
        · rw [← hd]; exact hne
        · rw [← hd]; exact h2
        · rw [← hrr]; exact h3
  · rintro ⟨hcs, hne, hd, hr⟩
    have hdrop : dropLit pre cs = some (d ++ r) := by
      rw [dropLit_iff, hcs, List.append_assoc]
    rw [matchIdAfter, hdrop]
    simp only [takeDigits_unique d r hd hr]
    simp [hne]

/-- The channels alternative never fires on a guilds path. -/
theorem matchIdAfter_chans_guilds (x : List Char) :
    matchIdAfter ('/' :: channelsKey) ('/' :: guildsKey ++ x) = none := by
  rw [matchIdAfter]
  rw [show channelsKey = 'c' :: List.tail channelsKey from rfl,
    show ('/' : Char) :: guildsKey ++ x = '/' :: 'g' :: (List.tail guildsKey ++ x) from rfl,
    dropLit_cons, if_pos rfl, dropLit_cons, if_neg (by decide)]

/-- The channels alternative never fires on a webhooks path. -/
theorem matchIdAfter_chans_webhooks (x : List Char) :
    matchIdAfter ('/' :: channelsKey) ('/' :: webhooksKey ++ x) = none := by
  rw [matchIdAfter]
  rw [show channelsKey = 'c' :: List.tail channelsKey from rfl,
    show ('/' : Char) :: webhooksKey ++ x = '/' :: 'w' :: (List.tail webhooksKey ++ x) from rfl,
    dropLit_cons, if_pos rfl, dropLit_cons, if_neg (by decide)]

/-- The guilds alternative never fires on a webhooks path. -/
theorem matchIdAfter_guilds_webhooks (x : List Char) :
    matchIdAfter ('/' :: guildsKey) ('/' :: webhooksKey ++ x) = none := by
  rw [matchIdAfter]
  rw [show guildsKey = 'g' :: List.tail guildsKey from rfl,
    show ('/' : Char) :: webhooksKey ++ x = '/' :: 'w' :: (List.tail webhooksKey ++ x) from rfl,
    dropLit_cons, if_pos rfl, dropLit_cons, if_neg (by decide)]

/-- Characterization of the routing parser at the character-list level. -/
theorem rlbList_iff (cs k : List Char) :
    rlbList cs = some k ↔
      (∃ d r, d ≠ [] ∧ (∀ c ∈ d, c.isDigit = true) ∧
        (∀ c, r.head? = some c → c.isDigit = false) ∧
        cs = '/' :: channelsKey ++ d ++ r ∧ k = channelsKey ++ d) ∨
      (∃ d r, d ≠ [] ∧ (∀ c ∈ d, c.isDigit = true) ∧
        (∀ c, r.head? = some c → c.isDigit = false) ∧
        cs = '/' :: guildsKey ++ d ++ r ∧ k = guildsKey ++ d) ∨
      (∃ d1 d2 r, d1 ≠ [] ∧ d2 ≠ [] ∧ (∀ c ∈ d1, c.isDigit = true) ∧
        (∀ c ∈ d2, c.isDigit = true) ∧ (∀ c, r.head? = some c → c.isDigit = false) ∧
        cs = '/' :: webhooksKey ++ d1 ++ '/' :: (d2 ++ r) ∧
        k = webhooksKey ++ d1 ++ '/' :: d2) := by
  constructor
  · intro h
    rw [rlbList] at h
    cases hc : matchIdAfter ('/' :: channelsKey) cs with
    | some p =>
      obtain ⟨d, r⟩ := p
      rw [hc] at h
      simp only [Option.some.injEq] at h
      obtain ⟨hcs, hne, hd, hr⟩ := (matchIdAfter_iff _ _ _ _).mp hc
      exact Or.inl ⟨d, r, hne, hd, hr, by simpa using hcs, h.symm⟩
    | none =>
      rw [hc] at h
      simp only at h
      cases hg : matchIdAfter ('/' :: guildsKey) cs with
      | some p =>
        obtain ⟨d, r⟩ := p
        rw [hg] at h
        simp only [Option.some.injEq] at h
        obtain ⟨hcs, hne, hd, hr⟩ := (matchIdAfter_iff _ _ _ _).mp hg
        exact Or.inr (Or.inl ⟨d, r, hne, hd, hr, by simpa using hcs, h.symm⟩)
      | none =>
        rw [hg] at h
        simp only at h
        cases hw : matchIdAfter ('/' :: webhooksKey) cs with
        | none => rw [hw] at h; exact absurd h (by simp)
        | some p =>
          obtain ⟨d1, r1⟩ := p
          rw [hw] at h
          simp only at h
          cases hw2 : matchIdAfter ['/'] r1 with
          | none => rw [hw2] at h; exact absurd h (by simp)
          | some p2 =>
            obtain ⟨d2, r2⟩ := p2
            rw [hw2] at h
            simp only [Option.some.injEq] at h
            obtain ⟨hcs1, hne1, hd1, -⟩ := (matchIdAfter_iff _ _ _ _).mp hw
            obtain ⟨hcs2, hne2, hd2, hr2⟩ := (matchIdAfter_iff _ _ _ _).mp hw2
            refine Or.inr (Or.inr ⟨d1, d2, r2, hne1, hne2, hd1, hd2, hr2, ?_, h.symm⟩)
            rw [hcs1, hcs2]
            simp
  · intro h
    rcases h with ⟨d, r, hne, hd, hr, hcs, hk⟩ | ⟨d, r, hne, hd, hr, hcs, hk⟩ |
      ⟨d1, d2, r, hne1, hne2, hd1, hd2, hr, hcs, hk⟩
    · subst hcs
      have hm : matchIdAfter ('/' :: channelsKey) ('/' :: channelsKey ++ d ++ r) =
          some (d, r) := by
        rw [matchIdAfter_iff]
        exact ⟨by simp, hne, hd, hr⟩
      rw [rlbList, hm, hk]
    · subst hcs
      have hm : matchIdAfter ('/' :: guildsKey) (('/' :: guildsKey) ++ (d ++ r)) =
          some (d, r) := by
        rw [matchIdAfter_iff]
        exact ⟨by simp, hne, hd, hr⟩
      rw [rlbList, List.append_assoc, matchIdAfter_chans_guilds, hm, hk]
    · subst hcs
      have hm : matchIdAfter ('/' :: webhooksKey)
          (('/' :: webhooksKey) ++ (d1 ++ '/' :: (d2 ++ r))) =
          some (d1, '/' :: (d2 ++ r)) := by
        rw [matchIdAfter_iff]
        refine ⟨by simp, hne1, hd1, ?_⟩
        intro c hc
        simp only [List.head?_cons, Option.some.injEq] at hc
        rw [← hc]
        decide
      have hm2 : matchIdAfter ['/'] ('/' :: (d2 ++ r)) = some (d2, r) := by
        rw [matchIdAfter_iff]
        exact ⟨by simp, hne2, hd2, hr⟩
      rw [rlbList, List.append_assoc, matchIdAfter_chans_webhooks,
        matchIdAfter_guilds_webhooks, hm]
      simp [hm2, hk]

/-- Character data of a string concatenation. -/
theorem data_append (a b : String) : (a ++ b).data = a.data ++ b.data := rfl

/-- Strings with equal character data are equal. -/
theorem string_data_ext (a b : String) (h : a.data = b.data) : a = b := by
  cases a
  cases b
  cases h
  rfl

/-- The channels alternative is the data of its string form. -/
theorem channelsKey_data : "/channels/".data = '/' :: channelsKey := rfl

/-- The guilds alternative is the data of its string form. -/
theorem guildsKey_data : "/guilds/".data = '/' :: guildsKey := rfl

/-- The webhooks alternative is the data of its string form. -/
theorem webhooksKey_data : "/webhooks/".data = '/' :: webhooksKey := rfl

/-- Data of the one-character slash string. -/
theorem slash_data : "/".data = ['/'] := rfl

/-- A nonempty decimal-digit identifier segment. -/
def digitsId (s : String) : Prop := s.data ≠ [] ∧ ∀ c ∈ s.data, c.isDigit = true

/-- A remainder that does not begin with a digit, witnessing that the
identifier before it is the maximal digit run. -/
def noLeadingDigit (s : String) : Prop :=
  ∀ c, s.data.head? = some c → c.isDigit = false

/-- C6: the bucket-key routing function is pure — a function of the path
string alone — and returns a key exactly when the path starts with
`/channels/{id}`, `/guilds/{id}` or `/webhooks/{id}/{id}` with each id a
nonempty maximal run of decimal digits, the key being the matched
`{family}/{id}` (for webhooks `{family}/{id1}/{id2}`) substring; moreover
`prepareRequest` computes the bucket id from the original unprefixed path, so
the API version prefix cannot affect bucket identity. -/
theorem bucket_routing :
    (∀ p k : String,
      getRateLimitBucket p = some k ↔
        (∃ id rest, digitsId id ∧ noLeadingDigit rest ∧
          p = "/channels/" ++ id ++ rest ∧ k = "channels/" ++ id) ∨
        (∃ id rest, digitsId id ∧ noLeadingDigit rest ∧
          p = "/guilds/" ++ id ++ rest ∧ k = "guilds/" ++ id) ∨
        (∃ id1 id2 rest, digitsId id1 ∧ digitsId id2 ∧ noLeadingDigit rest ∧
          p = "/webhooks/" ++ id1 ++ "/" ++ id2 ++ rest ∧
          k = "webhooks/" ++ id1 ++ "/" ++ id2)) ∧
    (∀ (c : RESTClientOptions) (method path : String) (opts : RequestOptions)
      (sr : Bool) (stack : String) (r : Req),
      prepareRequest c method path opts sr stack = .ok r →
      r.bucketId = getRateLimitBucket path) := by
  constructor
  · intro p k
    constructor
    · intro h
      rw [getRateLimitBucket, Option.map_eq_some'] at h
      obtain ⟨l, hl, hk⟩ := h
      rcases (rlbList_iff p.data l).mp hl with
        ⟨d, r, hne, hd, hr, hcs, hkl⟩ | ⟨d, r, hne, hd, hr, hcs, hkl⟩ |
        ⟨d1, d2, r, hne1, hne2, hd1, hd2, hr, hcs, hkl⟩
      · refine Or.inl ⟨String.mk d, String.mk r, ⟨hne, hd⟩, hr, ?_, ?_⟩
        · refine string_data_ext _ _ ?_
          rw [hcs]
          simp [data_append, channelsKey]
        · refine string_data_ext _ _ ?_
          rw [← hk, hkl]
          simp [data_append, channelsKey]
      · refine Or.inr (Or.inl ⟨String.mk d, String.mk r, ⟨hne, hd⟩, hr, ?_, ?_⟩)
        · refine string_data_ext _ _ ?_
          rw [hcs]
          simp [data_append, guildsKey]
        · refine string_data_ext _ _ ?_
          rw [← hk, hkl]
          simp [data_append, guildsKey]
      · refine Or.inr (Or.inr
          ⟨String.mk d1, String.mk d2, String.mk r, ⟨hne1, hd1⟩, ⟨hne2, hd2⟩, hr, ?_, ?_⟩)
        · refine string_data_ext _ _ ?_
          rw [hcs]
          simp [data_append, webhooksKey, slash_data]
        · refine string_data_ext _ _ ?_
          rw [← hk, hkl]
          simp [data_append, webhooksKey, slash_data]
    · intro h
      rw [getRateLimitBucket, Option.map_eq_some']
      rcases h with ⟨id, rest, ⟨hne, hd⟩, hr, hp, hk⟩ | ⟨id, rest, ⟨hne, hd⟩, hr, hp, hk⟩ |
        ⟨id1, id2, rest, ⟨hne1, hd1⟩, ⟨hne2, hd2⟩, hr, hp, hk⟩
      · refine ⟨channelsKey ++ id.data, ?_, ?_⟩
        · refine (rlbList_iff p.data _).mpr (Or.inl ⟨id.data, rest.data, hne, hd, hr, ?_, rfl⟩)
          rw [hp]
          simp [data_append, channelsKey]
        · refine string_data_ext _ _ ?_
          rw [hk]
          simp [data_append, channelsKey]
      · refine ⟨guildsKey ++ id.data, ?_, ?_⟩
        · refine (rlbList_iff p.data _).mpr
            (Or.inr (Or.inl ⟨id.data, rest.data, hne, hd, hr, ?_, rfl⟩))
          rw [hp]
          simp [data_append, guildsKey]
        · refine string_data_ext _ _ ?_
          rw [hk]
          simp [data_append, guildsKey]
      · refine ⟨webhooksKey ++ id1.data ++ '/' :: id2.data, ?_, ?_⟩
        · refine (rlbList_iff p.data _).mpr
            (Or.inr (Or.inr ⟨id1.data, id2.data, rest.data, hne1, hne2, hd1, hd2, hr, ?_, rfl⟩))
          rw [hp]
          simp [data_append, webhooksKey, slash_data]
        · refine string_data_ext _ _ ?_
          rw [hk]
          simp [data_append, webhooksKey, slash_data]
  · intro c method path opts sr stack r h
    obtain ⟨hs1, -, hr⟩ := prepareRequest_ok_spec c method path opts sr stack r h
    rw [hr]

/-- The prepared form of a GET of `/channels/123` under default options. -/
def reqChanEx : Req :=
  { headers := [("User-Agent", userAgent {}), ("Accept-Encoding", "gzip,deflate")]
    method := "GET", path := "/api/v9/channels/123", host := "discord.com", body := none
    bucketId := some "channels/123", timeout := none, stream := false, stack := ""
    port := none }

/-- Witness for C6: concrete routings of the spec's example paths, and a
concrete preparation whose bucket id comes from the unprefixed path. -/
theorem bucket_routing_witness :
    getRateLimitBucket "/channels/123" = some "channels/123" ∧
    getRateLimitBucket "/channels/123/messages/456" = some "channels/123" ∧
    getRateLimitBucket "/guilds/9" = some "guilds/9" ∧
    getRateLimitBucket "/webhooks/1/2" = some "webhooks/1/2" ∧
    getRateLimitBucket "/sticker-packs" = none ∧
    getRateLimitBucket "/webhooks/1" = none ∧
    prepareRequest {} "GET" "/channels/123" {} false "" = .ok reqChanEx ∧
    reqChanEx.bucketId = getRateLimitBucket "/channels/123" := by
  refine ⟨?_, ?_, rfl, rfl, rfl, rfl, rfl, ?_⟩
  · refine (bucket_routing.1 "/channels/123" "channels/123").mpr
      (Or.inl ⟨"123", "", ⟨?_, ?_⟩, ?_, rfl, rfl⟩)
    · decide
    · decide
    · intro c hc
      simp [noLeadingDigit] at hc
  · refine (bucket_routing.1 "/channels/123/messages/456" "channels/123").mpr
      (Or.inl ⟨"123", "/messages/456", ⟨?_, ?_⟩, ?_, rfl, rfl⟩)
    · decide
    · decide
    · intro c hc
      simp only [List.head?_cons, Option.some.injEq] at hc
      rw [← hc]
      decide
  · exact bucket_routing.2 {} "GET" "/channels/123" {} false "" reqChanEx rfl

end Rest
